import Mathlib

/-!
# betas-in/server: the Server wrapper around the echo engine

Shallow embedding of `server.go`.  The program is a thin layer over three
collaborators that live outside the repository: the logging sink
(`logger.Logger`), the HTTP engine (`echo.Echo`) and the operating system
(interrupt signal, clock).  Each collaborator is embedded at its interface:

* the logging sink is its level threshold, the list of entries written to it,
  and the flag that the process has exited (a fatal entry that the sink admits
  exits the process);
* the engine is the record of what was installed on it: its logger, the
  middleware passed to `Use` in call order, the routes passed to
  `GET`/`POST`/`PUT`/`DELETE` in call order, and the two banner switches;
* the concurrent part of `Start` is a step function over the events the
  scheduler and the environment can produce.
-/

namespace server

/-! ## The logging sink -/

/-- Go `error` values are represented by their message. -/
abbrev Error := String

/-- Severity of a log entry. -/
inductive Level where
  | debug
  | info
  | warn
  | error
  | fatal
deriving DecidableEq, Repr

/-- The zerolog number of a severity. -/
def Level.rank : Level → Int
  | Level.debug => 0
  | Level.info => 1
  | Level.warn => 2
  | Level.error => 3
  | Level.fatal => 4

/-- One entry written to the sink: severity, the `name` tag given to
`logger.Error(name)` (empty for entries written through the engine logger) and
the formatted message. -/
structure LogEntry where
  level : Level
  name : String
  msg : String
deriving DecidableEq, Repr

/-- The logging sink `*logger.Logger`, a zerolog logger underneath: its
identity, the level it is set to (debug 0, info 1, warn 2, error 3, fatal 4,
panic 5, higher: nothing), what has been written to it so far, and whether a
fatal entry has exited the process. -/
structure Logger where
  sink : Nat
  level : Int
  entries : List LogEntry
  exited : Bool
deriving DecidableEq, Repr

/-- The sink admits an entry of severity `lv`: zerolog drops every event whose
level is below the level of the logger. -/
def Logger.should (l : Logger) (lv : Level) : Bool :=
  decide (l.level ≤ lv.rank)

/-- `s.log.Error(name).Msgf(...)`: one error-level entry, when the sink admits
the error level. -/
def Logger.Error (l : Logger) (name msg : String) : Logger :=
  if l.should Level.error then
    { l with entries := l.entries ++ [⟨Level.error, name, msg⟩] }
  else l

/-- `s.app.Logger.Infof(...)`, the lecho wrapper of the sink: one informational
entry, when the sink admits the info level. -/
def Logger.Infof (l : Logger) (msg : String) : Logger :=
  if l.should Level.info then
    { l with entries := l.entries ++ [⟨Level.info, "", msg⟩] }
  else l

/-- `s.app.Logger.Fatal(err)`, the lecho wrapper of the sink: when the sink
admits the fatal level, one fatal entry and the process exits; when it does
not, the event is dropped before its exit hook is set up and the call returns. -/
def Logger.Fatal (l : Logger) (msg : String) : Logger :=
  if l.should Level.fatal then
    { l with entries := l.entries ++ [⟨Level.fatal, "", msg⟩], exited := true }
  else l

/-! ## Handlers and the request context -/

/-- The part of `echo.Context` a handler writes: the response. -/
structure Context where
  status : Int
  contentType : String
  body : String
deriving DecidableEq, Repr

/-- `c.String(code, s)`: a plain-text response with the given status and body;
no error. -/
def Context.String (_c : Context) (code : Int) (s : String) : Context × Option Error :=
  (⟨code, "text/plain; charset=UTF-8", s⟩, none)

/-- A value of type `func(echo.Context) error`: either the method value
`server.Health` (bound to the Server it is invoked on) or a caller's function. -/
inductive Handler where
  | Health
  | func (f : Context → Context × Option Error)

/-! ## The engine -/

/-- `middleware.CORSConfig`, the three fields the program sets. -/
structure CORSConfig where
  AllowOrigins : List String
  AllowMethods : List String
  AllowCredentials : Bool
deriving DecidableEq, Repr

/-- `lecho.Config`: the sink the wrapped logger writes to, and the nest key. -/
structure LechoConfig where
  Logger : Nat
  NestKey : String
deriving DecidableEq, Repr

/-- The middleware values the program passes to `app.Use`. -/
inductive Middleware where
  | Recover
  | CORSWithConfig (cfg : CORSConfig)
  | RequestID
  | Secure
  | Logger
  | lechoMiddleware (cfg : LechoConfig)
deriving DecidableEq, Repr

/-- The engine's own logger: echo's default, or `lecho.From` of a sink. -/
inductive EchoLogger where
  | gommon
  | lechoFrom (sink : Nat)
deriving DecidableEq, Repr

/-- One registration call on the engine. -/
structure Route where
  Method : String
  Path : String
  handler : Handler

/-- The engine `*echo.Echo`, as far as the program configures it. -/
structure Echo where
  Logger : EchoLogger
  middleware : List Middleware
  routes : List Route
  HideBanner : Bool
  HidePort : Bool

/-- `echo.New()`. -/
def Echo.New : Echo :=
  { Logger := EchoLogger.gommon, middleware := [], routes := [],
    HideBanner := false, HidePort := false }

/-- `app.Use(m)`: the stage is appended to the chain. -/
def Echo.Use (e : Echo) (m : Middleware) : Echo :=
  { e with middleware := e.middleware ++ [m] }

/-- `app.Add(method, path, h)`, behind `GET`/`POST`/`PUT`/`DELETE`. -/
def Echo.Add (e : Echo) (method path : String) (h : Handler) : Echo :=
  { e with routes := e.routes ++ [⟨method, path, h⟩] }

def Echo.GET (e : Echo) (path : String) (h : Handler) : Echo := e.Add "GET" path h

def Echo.POST (e : Echo) (path : String) (h : Handler) : Echo := e.Add "POST" path h

def Echo.PUT (e : Echo) (path : String) (h : Handler) : Echo := e.Add "PUT" path h

def Echo.DELETE (e : Echo) (path : String) (h : Handler) : Echo := e.Add "DELETE" path h

/-- The path under which echo's router files a registration: the empty path is
`/`, and a path that does not start with `/` gets one in front. -/
def normalizePath (p : String) : String :=
  match p.data with
  | [] => "/"
  | c :: _ => if c = '/' then p else "/" ++ p

/-- A character without a meaning of its own in a registered path: not the
parameter mark `:`, not the wildcard `*`, not the escape (the backslash). -/
def isPlain (c : Char) : Bool :=
  c != ':' && c != '*' && c != Char.ofNat 92

/-- A static path: plain characters only. -/
def isStatic (p : String) : Bool :=
  p.data.all isPlain

/-- The static route of a request, `path` being the path the router is given
for it: for a static request path, the handler registered under the method and
that very path, the latest one when there are several (echo's router keeps one
handler per method and path, a later registration replaces the earlier one, and
a static route is tried before any parameter or wildcard route).  `none` says that no static route answers the
request; what the router's parameter and wildcard matching then does is not
described by this function. -/
def Echo.find (e : Echo) (method path : String) : Option Handler :=
  if isStatic path then
    e.routes.foldl
      (fun acc r =>
        if r.Method = method ∧ normalizePath r.Path = path then some r.handler else acc)
      none
  else none

/-- The `Server` struct.  `port` is a Go `int` and `shutdownTimeout` a
`time.Duration` (nanoseconds); no arithmetic in the program can overflow on
them except the deadline, which is computed on `time.Time`. -/
structure Server where
  log : Logger
  app : Echo
  corsAllowedOrigins : String
  port : Int
  shutdownTimeout : Int

/-- `NewServer(logger, port, corsAllowedOrigins, shutdownTimeout)`. -/
def NewServer (logger : Logger) (port : Int) (corsAllowedOrigins : String)
    (shutdownTimeout : Int) : Server :=
  let app := Echo.New
  let app := { app with Logger := EchoLogger.lechoFrom logger.sink }
  let app := app.Use Middleware.Recover
  let app := app.Use (Middleware.CORSWithConfig
    { AllowOrigins := [corsAllowedOrigins],
      AllowMethods := ["GET", "POST", "PUT", "DELETE"],
      AllowCredentials := true })
  let app := app.Use Middleware.RequestID
  let app := app.Use Middleware.Secure
  let app := app.Use Middleware.Logger
  let app := app.Use (Middleware.lechoMiddleware
    { Logger := logger.sink, NestKey := "request" })
  let app := { app with HideBanner := true }
  let app := { app with HidePort := true }
  let app := app.GET "/health" Handler.Health
  { log := logger, app := app, corsAllowedOrigins := corsAllowedOrigins,
    port := port, shutdownTimeout := shutdownTimeout }

/-- `(s *Server) AddRoute(verb, route, f)`. -/
def Server.AddRoute (s : Server) (verb route : String) (f : Handler) : Server :=
  if verb = "GET" then { s with app := s.app.GET route f }
  else if verb = "POST" then { s with app := s.app.POST route f }
  else if verb = "PUT" then { s with app := s.app.PUT route f }
  else if verb = "DELETE" then { s with app := s.app.DELETE route f }
  else { s with log := s.log.Error "server.addRoute" ("The verb " ++ verb ++ " is not supported") }

/-- `(s *Server) Health(c)`: the receiver is not touched. -/
def Server.Health (s : Server) (c : Context) : Server × Context × Option Error :=
  (s, c.String 200 "OK")

/-- Invoking a registered handler on the Server: the Server afterwards, the
response and the returned error. -/
def Server.invoke (s : Server) (h : Handler) (c : Context) : Server × Context × Option Error :=
  match h with
  | Handler.Health => s.Health c
  | Handler.func f => (s, f c)

/-- A sequence of `AddRoute` calls, applied in order. -/
def Server.addRoutes (s : Server) (calls : List (String × String × Handler)) : Server :=
  calls.foldl (fun acc c => acc.AddRoute c.1 c.2.1 c.2.2) s

/-- The data-model constraints on a Server: port in 1..65535 and a shutdown
timeout that is not negative. -/
def Server.wellFormed (s : Server) : Prop :=
  1 ≤ s.port ∧ s.port ≤ 65535 ∧ 0 ≤ s.shutdownTimeout

/-- The same constraints on the arguments of `NewServer`. -/
def argsWellFormed (port shutdownTimeout : Int) : Prop :=
  1 ≤ port ∧ port ≤ 65535 ∧ 0 ≤ shutdownTimeout

/-- The methods `AddRoute` accepts. -/
def supportedVerbs : List String := ["GET", "POST", "PUT", "DELETE"]

/-- The configurations of the CORS stages installed on an engine. -/
def Echo.corsConfigs (e : Echo) : List CORSConfig :=
  e.middleware.filterMap fun m =>
    match m with
    | Middleware.CORSWithConfig cfg => some cfg
    | _ => none

/-- A caller's handler that answers 503, used to show what a second
registration of `GET /health` does. -/
def outOfService : Handler :=
  Handler.func fun c => c.String 503 "down"

/-! ## Start -/

/-- What the scheduler, the engine and the operating system can do while
`Start` runs. -/
inductive Event where
  /-- The goroutine is scheduled: it logs the port and calls `app.Start`. -/
  | listenRun
  /-- The call `app.Start(address)` in the goroutine returns `err`. -/
  | listenReturn (err : Option Error)
  /-- An interrupt signal arrives on `quit`; `now` is the clock reading taken
  by `context.WithTimeout` when the main flow resumes. -/
  | interrupt (now : Int)
  /-- The call `app.Shutdown(ctx)` in the main flow returns `err`. -/
  | stopReturn (err : Option Error)
deriving DecidableEq, Repr

def Event.isInterrupt : Event → Bool
  | Event.interrupt _ => true
  | _ => false

def Event.isStopReturn : Event → Bool
  | Event.stopReturn _ => true
  | _ => false

/-- Where the goroutine of `Start` is: not yet run, inside `app.Start`, or
past its last statement. -/
inductive ListenState where
  | spawned
  | serving
  | finished
deriving DecidableEq, Repr

/-- Where the main flow of `Start` is: blocked on `<-quit`, inside
`app.Shutdown`, returned to the caller, or gone with the process inside
`Fatal`. -/
inductive MainState where
  | waiting
  | stopping
  | returned
  | halted
deriving DecidableEq, Repr

/-- One invocation of `app.Shutdown(ctx)`: the clock reading at which the
context was made and the call issued, and the deadline of the context. -/
structure StopCall where
  invokedAt : Int
  deadline : Int
deriving DecidableEq, Repr

/-- The context of a stop call is already done when the call is made
(`context.WithDeadline` cancels at once when the time left is not positive). -/
def StopCall.expired (c : StopCall) : Prop := c.deadline ≤ c.invokedAt

/-- The running process: the sink, the two flows, the addresses passed to
`app.Start` and the invocations of `app.Shutdown`.  `Start` logs through
`s.app.Logger`, which `NewServer` sets to `lecho.From(logger.Get())`: the
entries land in the sink of the Server. -/
structure Proc where
  log : Logger
  listen : ListenState
  main : MainState
  listenCalls : List String
  stopCalls : List StopCall
deriving DecidableEq, Repr

/-- `Start` up to the point where the main flow blocks on `<-quit`: the
goroutine is spawned and the interrupt signal is subscribed to. -/
def Server.spawn (s : Server) : Proc :=
  { log := s.log, listen := ListenState.spawned, main := MainState.waiting,
    listenCalls := [], stopCalls := [] }

/-- One step of the process of `Start`.  Nothing happens once the process has
exited. -/
def Server.step (s : Server) (p : Proc) (ev : Event) : Proc :=
  if p.log.exited then p
  else
    match ev with
    | Event.listenRun =>
      match p.listen with
      | ListenState.spawned =>
        { p with
          log := p.log.Infof ("Starting server at port " ++ toString s.port),
          listenCalls := p.listenCalls ++ [":" ++ toString s.port],
          listen := ListenState.serving }
      | _ => p
    | Event.listenReturn err =>
      match p.listen with
      | ListenState.serving =>
        match err with
        | some e =>
          { p with
            log := p.log.Infof ("Shutting down the server: " ++ e),
            listen := ListenState.finished }
        | none => { p with listen := ListenState.finished }
      | _ => p
    | Event.interrupt now =>
      match p.main with
      | MainState.waiting =>
        { p with
          stopCalls := p.stopCalls ++ [⟨now, now + s.shutdownTimeout⟩],
          main := MainState.stopping }
      | _ => p
    | Event.stopReturn err =>
      match p.main with
      | MainState.stopping =>
        match err with
        | some e =>
          { p with
            log := p.log.Fatal e,
            main := if (p.log.Fatal e).exited then MainState.halted else MainState.returned }
        | none => { p with main := MainState.returned }
      | _ => p

/-- The process from state `p` on, under the events `evs`. -/
def Server.run (s : Server) (p : Proc) (evs : List Event) : Proc :=
  evs.foldl s.step p

/-- `(s *Server) Start()`: the state of the process once the events `evs` have
happened. -/
def Server.Start (s : Server) (evs : List Event) : Proc :=
  s.run s.spawn evs

/-- The fatal entries of a sink. -/
def Logger.fatals (l : Logger) : List LogEntry :=
  l.entries.filter fun e => decide (e.level = Level.fatal)

/-- What the main flow of `Start` can see or cause: its position, the stop
calls, the exit flag and the fatal entries agree in `p` and `q`. -/
def Proc.sameMain (p q : Proc) : Prop :=
  q.main = p.main ∧ q.stopCalls = p.stopCalls ∧ q.log.exited = p.log.exited ∧
    q.log.fatals = p.log.fatals

/-- The addresses passed to `app.Start` so far, given where the goroutine is. -/
def Server.listenInv (s : Server) (p : Proc) : Prop :=
  match p.listen with
  | ListenState.spawned => p.listenCalls = []
  | _ => p.listenCalls = [":" ++ toString s.port]

/-- The fatal entry `Fatal(err)` writes when `app.Shutdown` returned `err`,
none when it returned nil. -/
def fatalOf (err : Option Error) : List LogEntry :=
  match err with
  | some e => [⟨Level.fatal, "", e⟩]
  | none => []

/-- The Server of the example scenario: port 8080, origin
`https://example.com`, timeout 5 s, on a fresh sink that admits every level. -/
def exampleServer : Server :=
  NewServer ⟨0, 0, [], false⟩ 8080 "https://example.com" 5000000000

/-- The example Server on a sink set to level `lv`. -/
def serverAtLevel (lv : Int) : Server :=
  NewServer ⟨0, lv, [], false⟩ 8080 "https://example.com" 5000000000

/-- Calls of `AddRoute` that leave `GET /health` alone: another GET path, an
unsupported verb on the health path, and the health path under POST. -/
def exampleCalls : List (String × String × Handler) :=
  [("GET", "/ping", outOfService), ("PATCH", "/health", outOfService),
   ("POST", "health", outOfService)]

/-! ## Lemmas on the engine -/

theorem find_Add (e : Echo) (method path : String) (h : Handler) (m p : String) :
    (e.Add method path h).find m p
      = if isStatic p = true ∧ method = m ∧ normalizePath path = p then some h
        else e.find m p := by
  by_cases hp : isStatic p = true
  · simp [Echo.find, Echo.Add, List.foldl_append, hp]
  · simp [Echo.find, hp]

theorem find_Add_other (e : Echo) (method path : String) (h : Handler) (m p : String)
    (hne : ¬ (method = m ∧ normalizePath path = p)) :
    (e.Add method path h).find m p = e.find m p := by
  rw [find_Add, if_neg (fun hc => hne hc.2)]

theorem AddRoute_supported (s : Server) (verb route : String) (f : Handler)
    (hv : verb ∈ supportedVerbs) :
    s.AddRoute verb route f = { s with app := s.app.Add verb route f } := by
  simp only [supportedVerbs, List.mem_cons, List.mem_singleton, List.not_mem_nil, or_false] at hv
  rcases hv with h | h | h | h <;> subst h <;>
    simp [Server.AddRoute, Echo.GET, Echo.POST, Echo.PUT, Echo.DELETE]

theorem AddRoute_unsupported (s : Server) (verb route : String) (f : Handler)
    (hv : verb ∉ supportedVerbs) :
    s.AddRoute verb route f
      = { s with
          log := s.log.Error "server.addRoute" ("The verb " ++ verb ++ " is not supported") } := by
  simp only [supportedVerbs, List.mem_cons, List.mem_singleton, List.not_mem_nil, or_false,
    not_or] at hv
  obtain ⟨h1, h2, h3, h4⟩ := hv
  simp [Server.AddRoute, h1, h2, h3, h4]

/-! ## Route registration -/

/-- C1 (as stated, refuted): on a sink set to the fatal level, `AddRoute` with
the verb PATCH writes no entry at all, so not exactly one error entry. -/
theorem AddRoute_unsupported_verb_unlogged :
    ¬ ∃ e : LogEntry,
        ((serverAtLevel 4).AddRoute "PATCH" "/ping" outOfService).log.entries
          = (serverAtLevel 4).log.entries ++ [e] ∧
        e.level = Level.error ∧
        ∃ before after : String, e.msg = before ++ "PATCH" ++ after := by
  rintro ⟨e, he, _⟩
  have h0 : ((serverAtLevel 4).AddRoute "PATCH" "/ping" outOfService).log.entries = [] := by
    decide
  rw [h0] at he
  simp [serverAtLevel, NewServer] at he

/-- C1 (amended): for a verb outside GET, POST, PUT, DELETE, `AddRoute` leaves
the engine (and so its route table) unchanged, leaves the process-exit flag and
the other fields of the Server unchanged, and, when the sink admits the error
level, appends exactly one entry to the log, error-level and with a message
that contains the verb; when the sink does not admit it, the log is
unchanged. -/
theorem AddRoute_rejects_unsupported_verb (s : Server) (verb route : String) (f : Handler)
    (hv : verb ∉ supportedVerbs) :
    (s.AddRoute verb route f).app.routes = s.app.routes ∧
    (s.AddRoute verb route f).app.middleware = s.app.middleware ∧
    (∀ m p, (s.AddRoute verb route f).app.find m p = s.app.find m p) ∧
    (s.log.should Level.error = true →
      ∃ e : LogEntry,
        (s.AddRoute verb route f).log.entries = s.log.entries ++ [e] ∧
        e.level = Level.error ∧
        ∃ before after : String, e.msg = before ++ verb ++ after) ∧
    (s.log.should Level.error = false → (s.AddRoute verb route f).log = s.log) ∧
    (s.AddRoute verb route f).log.exited = s.log.exited ∧
    (s.AddRoute verb route f).port = s.port ∧
    (s.AddRoute verb route f).shutdownTimeout = s.shutdownTimeout := by
  rw [AddRoute_unsupported s verb route f hv]
  refine ⟨rfl, rfl, fun _ _ => rfl, ?_, ?_, ?_, rfl, rfl⟩
  · intro hlog
    refine ⟨⟨Level.error, "server.addRoute", "The verb " ++ verb ++ " is not supported"⟩,
      ?_, rfl, "The verb ", " is not supported", rfl⟩
    simp [Logger.Error, hlog]
  · intro hlog
    simp [Logger.Error, hlog]
  · show (s.log.Error _ _).exited = s.log.exited
    unfold Logger.Error
    split <;> rfl

/-- C7 (as stated, refuted): `NewServer` with port 0, and `NewServer` with a
negative timeout, both give a Server that breaks the data-model constraints. -/
theorem NewServer_not_always_wellFormed :
    ¬ (NewServer ⟨0, 0, [], false⟩ 0 "https://example.com" 5000000000).wellFormed ∧
    ¬ (NewServer ⟨0, 0, [], false⟩ 8080 "https://example.com" (-1)).wellFormed := by
  constructor <;> simp [Server.wellFormed, NewServer]

/-- C7 (amended): `NewServer` stores the port and the timeout it is given,
unchanged and unchecked, so the Server satisfies the data-model constraints
exactly when the arguments do. -/
theorem NewServer_stores_port_and_timeout (logger : Logger) (port : Int) (origin : String)
    (timeout : Int) :
    (NewServer logger port origin timeout).port = port ∧
    (NewServer logger port origin timeout).shutdownTimeout = timeout ∧
    ((NewServer logger port origin timeout).wellFormed ↔ argsWellFormed port timeout) :=
  ⟨rfl, rfl, Iff.rfl⟩

/-- C8: the engine built by `NewServer` carries exactly one CORS stage; its
allowed origins are the one-element list of the origin given, its allowed
methods are GET, POST, PUT, DELETE, and credentials are allowed. -/
theorem NewServer_cors_config (logger : Logger) (port : Int) (origin : String)
    (timeout : Int) :
    (NewServer logger port origin timeout).app.corsConfigs
        = [{ AllowOrigins := [origin],
             AllowMethods := ["GET", "POST", "PUT", "DELETE"],
             AllowCredentials := true }] ∧
    (∀ cfg ∈ (NewServer logger port origin timeout).app.corsConfigs,
        (∀ o ∈ cfg.AllowOrigins, o = origin) ∧
        (∀ m ∈ cfg.AllowMethods, m ∈ supportedVerbs) ∧
        cfg.AllowCredentials = true) := by
  have h : (NewServer logger port origin timeout).app.corsConfigs
        = [{ AllowOrigins := [origin],
             AllowMethods := ["GET", "POST", "PUT", "DELETE"],
             AllowCredentials := true }] := rfl
  refine ⟨h, ?_⟩
  intro cfg hcfg
  rw [h] at hcfg
  simp only [List.mem_singleton] at hcfg
  subst hcfg
  simp [supportedVerbs]

/-- C9: the middleware chain of the engine built by `NewServer` is, in this
order, recovery, CORS, request ID, security headers, access logging and the
logger binding to the given sink: six stages, whatever the arguments. -/
theorem NewServer_middleware_chain (logger : Logger) (port : Int) (origin : String)
    (timeout : Int) :
    (NewServer logger port origin timeout).app.middleware
        = [Middleware.Recover,
           Middleware.CORSWithConfig
             { AllowOrigins := [origin],
               AllowMethods := ["GET", "POST", "PUT", "DELETE"],
               AllowCredentials := true },
           Middleware.RequestID,
           Middleware.Secure,
           Middleware.Logger,
           Middleware.lechoMiddleware { Logger := logger.sink, NestKey := "request" }] ∧
    (NewServer logger port origin timeout).app.middleware.length = 6 ∧
    (NewServer logger port origin timeout).app.Logger = EchoLogger.lechoFrom logger.sink :=
  ⟨rfl, rfl, rfl⟩

/-! ## The health route -/

theorem find_AddRoute_other (s : Server) (verb route : String) (f : Handler) (m p : String)
    (h : ¬ (verb = m ∧ normalizePath route = p)) :
    (s.AddRoute verb route f).app.find m p = s.app.find m p := by
  by_cases hv : verb ∈ supportedVerbs
  · rw [AddRoute_supported s verb route f hv]
    exact find_Add_other s.app verb route f m p h
  · rw [AddRoute_unsupported s verb route f hv]

theorem find_addRoutes_other (calls : List (String × String × Handler)) (s : Server)
    (m p : String) (h : ∀ c ∈ calls, ¬ (c.1 = m ∧ normalizePath c.2.1 = p)) :
    (s.addRoutes calls).app.find m p = s.app.find m p := by
  induction calls generalizing s with
  | nil => rfl
  | cons c cs ih =>
    have hc := h c (List.mem_cons_self c cs)
    have hcs : ∀ d ∈ cs, ¬ (d.1 = m ∧ normalizePath d.2.1 = p) :=
      fun d hd => h d (List.mem_cons_of_mem c hd)
    show ((s.AddRoute c.1 c.2.1 c.2.2).addRoutes cs).app.find m p = s.app.find m p
    rw [ih (s.AddRoute c.1 c.2.1 c.2.2) hcs, find_AddRoute_other s c.1 c.2.1 c.2.2 m p hc]

theorem normalizePath_health : normalizePath "/health" = "/health" := by decide

theorem NewServer_routes (logger : Logger) (port : Int) (origin : String) (timeout : Int) :
    (NewServer logger port origin timeout).app.routes = [⟨"GET", "/health", Handler.Health⟩] :=
  rfl

theorem NewServer_find_health (logger : Logger) (port : Int) (origin : String) (timeout : Int) :
    (NewServer logger port origin timeout).app.find "GET" "/health" = some Handler.Health := by
  have hs : isStatic "/health" = true := by decide
  simp [Echo.find, NewServer_routes, normalizePath_health, hs]

/-- C3 (as stated, refuted): after `NewServer` and the single call
`AddRoute("GET", "/health", f)` with `f` answering 503, no handler that
`GET /health` dispatches to answers 200 with body OK. -/
theorem health_route_replaced_by_AddRoute :
    ¬ ∃ h : Handler,
        ((NewServer ⟨0, 0, [], false⟩ 8080 "https://example.com" 5000000000).addRoutes
            [("GET", "/health", outOfService)]).app.find "GET" "/health" = some h ∧
        ∀ c : Context,
          (((NewServer ⟨0, 0, [], false⟩ 8080 "https://example.com" 5000000000).addRoutes
              [("GET", "/health", outOfService)]).invoke h c).2.1.status = 200 ∧
          (((NewServer ⟨0, 0, [], false⟩ 8080 "https://example.com" 5000000000).addRoutes
              [("GET", "/health", outOfService)]).invoke h c).2.1.body = "OK" := by
  rintro ⟨h, hfind, hresp⟩
  have hf : ((NewServer ⟨0, 0, [], false⟩ 8080 "https://example.com" 5000000000).addRoutes
      [("GET", "/health", outOfService)]).app.find "GET" "/health" = some outOfService := by
    have hs : isStatic "/health" = true := by decide
    simp [Server.addRoutes, Server.AddRoute, Echo.GET, find_Add, normalizePath_health, hs]
  rw [hf] at hfind
  have hh : outOfService = h := Option.some.inj hfind
  subst hh
  have h1 := (hresp ⟨0, "", ""⟩).1
  simp [Server.invoke, outOfService, Context.String] at h1

/-- C3 (amended): after `NewServer` and any sequence of `AddRoute` calls none
of which registers verb GET on a path the engine files as `/health`,
`GET /health` dispatches to `Health`, which answers status 200 with body OK,
returns no error and leaves the Server as it was. -/
theorem health_route_kept (logger : Logger) (port : Int) (origin : String) (timeout : Int)
    (calls : List (String × String × Handler))
    (hcalls : ∀ c ∈ calls, ¬ (c.1 = "GET" ∧ normalizePath c.2.1 = "/health")) :
    ((NewServer logger port origin timeout).addRoutes calls).app.find "GET" "/health"
        = some Handler.Health ∧
    ∀ c : Context,
      ((NewServer logger port origin timeout).addRoutes calls).invoke Handler.Health c
        = ((NewServer logger port origin timeout).addRoutes calls,
            ⟨200, "text/plain; charset=UTF-8", "OK"⟩, none) := by
  constructor
  · rw [find_addRoutes_other calls _ "GET" "/health" hcalls]
    exact NewServer_find_health logger port origin timeout
  · intro c
    rfl

/-! ## Lemmas on the process of Start -/

theorem run_append (s : Server) (p : Proc) (xs ys : List Event) :
    s.run p (xs ++ ys) = s.run (s.run p xs) ys := by
  simp [Server.run, List.foldl_append]

theorem run_cons (s : Server) (p : Proc) (ev : Event) (evs : List Event) :
    s.run p (ev :: evs) = s.run (s.step p ev) evs := rfl

theorem step_exited (s : Server) (p : Proc) (ev : Event) (h : p.log.exited = true) :
    s.step p ev = p := by
  simp [Server.step, h]

theorem run_exited (s : Server) (p : Proc) (evs : List Event) (h : p.log.exited = true) :
    s.run p evs = p := by
  induction evs with
  | nil => rfl
  | cons ev evs ih => rw [run_cons, step_exited s p ev h, ih]

theorem sameMain_refl (p : Proc) : p.sameMain p := ⟨rfl, rfl, rfl, rfl⟩

theorem sameMain_trans (p q r : Proc) (h1 : p.sameMain q) (h2 : q.sameMain r) :
    p.sameMain r :=
  ⟨h2.1.trans h1.1, h2.2.1.trans h1.2.1, h2.2.2.1.trans h1.2.2.1, h2.2.2.2.trans h1.2.2.2⟩

theorem fatals_Infof (l : Logger) (msg : String) : (l.Infof msg).fatals = l.fatals := by
  unfold Logger.Infof
  split <;> simp [Logger.fatals, List.filter_append]

theorem exited_Infof (l : Logger) (msg : String) : (l.Infof msg).exited = l.exited := by
  unfold Logger.Infof
  split <;> rfl

theorem level_Infof (l : Logger) (msg : String) : (l.Infof msg).level = l.level := by
  unfold Logger.Infof
  split <;> rfl

theorem level_Fatal (l : Logger) (msg : String) : (l.Fatal msg).level = l.level := by
  unfold Logger.Fatal
  split <;> rfl

theorem Infof_admitted (l : Logger) (msg : String) (h : l.should Level.info = true) :
    (l.Infof msg).entries = l.entries ++ [⟨Level.info, "", msg⟩] := by
  simp [Logger.Infof, h]

theorem Infof_dropped (l : Logger) (msg : String) (h : l.should Level.info = false) :
    l.Infof msg = l := by
  simp [Logger.Infof, h]

theorem Fatal_admitted (l : Logger) (msg : String) (h : l.should Level.fatal = true) :
    l.Fatal msg = { l with entries := l.entries ++ [⟨Level.fatal, "", msg⟩], exited := true } := by
  simp [Logger.Fatal, h]

theorem Fatal_dropped (l : Logger) (msg : String) (h : l.should Level.fatal = false) :
    l.Fatal msg = l := by
  simp [Logger.Fatal, h]

theorem fatals_Fatal (l : Logger) (msg : String) (h : l.should Level.fatal = true) :
    (l.Fatal msg).fatals = l.fatals ++ [⟨Level.fatal, "", msg⟩] := by
  simp [Logger.fatals, Fatal_admitted l msg h, List.filter_append]

theorem step_waiting (s : Server) (p : Proc) (ev : Event) (hm : p.main = MainState.waiting)
    (he : ev.isInterrupt = false) : p.sameMain (s.step p ev) := by
  by_cases hx : p.log.exited = true
  · rw [step_exited s p ev hx]; exact sameMain_refl p
  · cases ev with
    | listenRun =>
      cases hl : p.listen <;>
        simp [Server.step, hx, hl, Proc.sameMain, fatals_Infof, exited_Infof]
    | listenReturn err =>
      cases hl : p.listen <;> cases err <;>
        simp [Server.step, hx, hl, Proc.sameMain, fatals_Infof, exited_Infof]
    | interrupt now => simp [Event.isInterrupt] at he
    | stopReturn err => simp [Server.step, hx, hm, Proc.sameMain]

theorem step_stopping (s : Server) (p : Proc) (ev : Event) (hm : p.main = MainState.stopping)
    (he : ev.isStopReturn = false) : p.sameMain (s.step p ev) := by
  by_cases hx : p.log.exited = true
  · rw [step_exited s p ev hx]; exact sameMain_refl p
  · cases ev with
    | listenRun =>
      cases hl : p.listen <;>
        simp [Server.step, hx, hl, Proc.sameMain, fatals_Infof, exited_Infof]
    | listenReturn err =>
      cases hl : p.listen <;> cases err <;>
        simp [Server.step, hx, hl, Proc.sameMain, fatals_Infof, exited_Infof]
    | interrupt now => simp [Server.step, hx, hm, Proc.sameMain]
    | stopReturn err => simp [Event.isStopReturn] at he

theorem step_over (s : Server) (p : Proc) (ev : Event)
    (hm : p.main = MainState.returned ∨ p.main = MainState.halted) :
    p.sameMain (s.step p ev) := by
  by_cases hx : p.log.exited = true
  · rw [step_exited s p ev hx]; exact sameMain_refl p
  · cases ev with
    | listenRun =>
      cases hl : p.listen <;>
        simp [Server.step, hx, hl, Proc.sameMain, fatals_Infof, exited_Infof]
    | listenReturn err =>
      cases hl : p.listen <;> cases err <;>
        simp [Server.step, hx, hl, Proc.sameMain, fatals_Infof, exited_Infof]
    | interrupt now => rcases hm with hm | hm <;> simp [Server.step, hx, hm, Proc.sameMain]
    | stopReturn err => rcases hm with hm | hm <;> simp [Server.step, hx, hm, Proc.sameMain]

theorem run_waiting (s : Server) (evs : List Event) (p : Proc)
    (hm : p.main = MainState.waiting) (he : ∀ e ∈ evs, e.isInterrupt = false) :
    p.sameMain (s.run p evs) := by
  induction evs generalizing p with
  | nil => exact sameMain_refl p
  | cons ev evs ih =>
    have h1 := step_waiting s p ev hm (he ev (List.mem_cons_self ev evs))
    have h2 := ih (s.step p ev) (h1.1.trans hm) (fun e h => he e (List.mem_cons_of_mem ev h))
    exact sameMain_trans _ _ _ h1 h2

theorem run_stopping (s : Server) (evs : List Event) (p : Proc)
    (hm : p.main = MainState.stopping) (he : ∀ e ∈ evs, e.isStopReturn = false) :
    p.sameMain (s.run p evs) := by
  induction evs generalizing p with
  | nil => exact sameMain_refl p
  | cons ev evs ih =>
    have h1 := step_stopping s p ev hm (he ev (List.mem_cons_self ev evs))
    have h2 := ih (s.step p ev) (h1.1.trans hm) (fun e h => he e (List.mem_cons_of_mem ev h))
    exact sameMain_trans _ _ _ h1 h2

theorem run_over (s : Server) (evs : List Event) (p : Proc)
    (hm : p.main = MainState.returned ∨ p.main = MainState.halted) :
    p.sameMain (s.run p evs) := by
  induction evs generalizing p with
  | nil => exact sameMain_refl p
  | cons ev evs ih =>
    have h1 := step_over s p ev hm
    have h2 := ih (s.step p ev) (by rw [h1.1]; exact hm)
    exact sameMain_trans _ _ _ h1 h2

theorem step_not_waiting (s : Server) (p : Proc) (ev : Event)
    (hm : p.main ≠ MainState.waiting) :
    (s.step p ev).main ≠ MainState.waiting ∧ (s.step p ev).stopCalls = p.stopCalls := by
  by_cases hx : p.log.exited = true
  · rw [step_exited s p ev hx]; exact ⟨hm, rfl⟩
  · cases ev with
    | listenRun => cases hl : p.listen <;> simp [Server.step, hx, hl, hm]
    | listenReturn err => cases hl : p.listen <;> cases err <;> simp [Server.step, hx, hl, hm]
    | interrupt now => cases hl : p.main <;> simp_all [Server.step]
    | stopReturn err =>
      cases hl : p.main <;> cases err <;> simp_all [Server.step]
      split <;> simp

theorem run_not_waiting (s : Server) (evs : List Event) (p : Proc)
    (hm : p.main ≠ MainState.waiting) : (s.run p evs).stopCalls = p.stopCalls := by
  induction evs generalizing p with
  | nil => rfl
  | cons ev evs ih =>
    have h1 := step_not_waiting s p ev hm
    rw [run_cons, ih (s.step p ev) h1.1, h1.2]

theorem step_interrupt (s : Server) (p : Proc) (now : Int) (hm : p.main = MainState.waiting)
    (hx : p.log.exited = false) :
    s.step p (Event.interrupt now)
      = { p with
          stopCalls := p.stopCalls ++ [⟨now, now + s.shutdownTimeout⟩],
          main := MainState.stopping } := by
  simp [Server.step, hx, hm]

theorem step_stopReturn_some (s : Server) (p : Proc) (e : Error)
    (hm : p.main = MainState.stopping) (hx : p.log.exited = false)
    (hf : p.log.should Level.fatal = true) :
    s.step p (Event.stopReturn (some e))
      = { p with log := p.log.Fatal e, main := MainState.halted } := by
  simp [Server.step, hx, hm, Fatal_admitted p.log e hf]

theorem step_level (s : Server) (p : Proc) (ev : Event) :
    (s.step p ev).log.level = p.log.level := by
  by_cases hx : p.log.exited = true
  · rw [step_exited s p ev hx]
  · cases ev with
    | listenRun => cases hl : p.listen <;> simp [Server.step, hx, hl, level_Infof]
    | listenReturn err =>
      cases hl : p.listen <;> cases err <;> simp [Server.step, hx, hl, level_Infof]
    | interrupt now => cases hl : p.main <;> simp [Server.step, hx, hl]
    | stopReturn err =>
      cases hl : p.main <;> cases err <;> simp [Server.step, hx, hl, level_Fatal]

theorem run_level (s : Server) (evs : List Event) (p : Proc) :
    (s.run p evs).log.level = p.log.level := by
  induction evs generalizing p with
  | nil => rfl
  | cons ev evs ih => rw [run_cons, ih (s.step p ev), step_level]

theorem run_should (s : Server) (evs : List Event) (p : Proc) (lv : Level) :
    (s.run p evs).log.should lv = p.log.should lv := by
  simp [Logger.should, run_level]

theorem step_stopReturn_none (s : Server) (p : Proc)
    (hm : p.main = MainState.stopping) (hx : p.log.exited = false) :
    s.step p (Event.stopReturn none) = { p with main := MainState.returned } := by
  simp [Server.step, hx, hm]

theorem Start_waiting (s : Server) (evs : List Event)
    (he : ∀ e ∈ evs, e.isInterrupt = false) :
    (s.Start evs).main = MainState.waiting ∧ (s.Start evs).stopCalls = [] ∧
      (s.Start evs).log.exited = s.log.exited ∧ (s.Start evs).log.fatals = s.log.fatals :=
  run_waiting s evs s.spawn rfl he

theorem step_listenInv (s : Server) (p : Proc) (ev : Event) (h : s.listenInv p) :
    s.listenInv (s.step p ev) := by
  by_cases hx : p.log.exited = true
  · rw [step_exited s p ev hx]; exact h
  · cases ev with
    | listenRun => cases hl : p.listen <;> simp_all [Server.step, Server.listenInv]
    | listenReturn err =>
      cases hl : p.listen <;> cases err <;> simp_all [Server.step, Server.listenInv]
    | interrupt now => cases hl : p.main <;> simp_all [Server.step, Server.listenInv]
    | stopReturn err =>
      cases hl : p.main <;> cases err <;> simp_all [Server.step, Server.listenInv]

theorem run_listenInv (s : Server) (evs : List Event) (p : Proc) (h : s.listenInv p) :
    s.listenInv (s.run p evs) := by
  induction evs generalizing p with
  | nil => exact h
  | cons ev evs ih => exact ih (s.step p ev) (step_listenInv s p ev h)

theorem step_idle (s : Server) (p : Proc) (ev : Event) (hl : p.listen = ListenState.finished)
    (hm : p.main = MainState.waiting) (he : ev.isInterrupt = false) : s.step p ev = p := by
  by_cases hx : p.log.exited = true
  · exact step_exited s p ev hx
  · cases ev with
    | listenRun => simp [Server.step, hx, hl]
    | listenReturn err => simp [Server.step, hx, hl]
    | interrupt now => simp [Event.isInterrupt] at he
    | stopReturn err => simp [Server.step, hx, hm]

theorem run_idle (s : Server) (evs : List Event) (p : Proc) (hl : p.listen = ListenState.finished)
    (hm : p.main = MainState.waiting) (he : ∀ e ∈ evs, e.isInterrupt = false) :
    s.run p evs = p := by
  induction evs with
  | nil => rfl
  | cons ev evs ih =>
    rw [run_cons, step_idle s p ev hl hm (he ev (List.mem_cons_self ev evs))]
    exact ih (fun e h => he e (List.mem_cons_of_mem ev h))

theorem Start_stopCalls_after_interrupt (s : Server) (hlive : s.log.exited = false)
    (pre post : List Event) (now : Int) (hpre : ∀ e ∈ pre, e.isInterrupt = false) :
    (s.Start (pre ++ Event.interrupt now :: post)).stopCalls
        = [⟨now, now + s.shutdownTimeout⟩] := by
  have h1 := Start_waiting s pre hpre
  have hx : (s.Start pre).log.exited = false := h1.2.2.1.trans hlive
  show (s.run s.spawn (pre ++ Event.interrupt now :: post)).stopCalls = _
  rw [run_append, run_cons]
  have hstep := step_interrupt s (s.run s.spawn pre) now h1.1 hx
  rw [run_not_waiting s post _ (by rw [hstep]; simp), hstep]
  show (s.Start pre).stopCalls ++ _ = _
  rw [h1.2.1]; rfl

/-! ## Start: the shutdown protocol -/

/-- C4: in a live process, `Start` has invoked the engine's stop operation
zero times as long as no interrupt has arrived; from the first interrupt on,
whatever happens afterwards (further interrupts included), it has invoked it
exactly once, with deadline equal to the time of the invocation plus the
shutdown timeout; with timeout 0 that deadline has already elapsed at the
invocation. -/
theorem Start_stops_once_after_first_interrupt (s : Server) (hlive : s.log.exited = false)
    (pre post : List Event) (now : Int) (hpre : ∀ e ∈ pre, e.isInterrupt = false) :
    (s.Start pre).stopCalls = [] ∧
    (s.Start (pre ++ Event.interrupt now :: post)).stopCalls
        = [⟨now, now + s.shutdownTimeout⟩] ∧
    (s.shutdownTimeout = 0 →
        ∀ c ∈ (s.Start (pre ++ Event.interrupt now :: post)).stopCalls, c.expired) := by
  have h2 := Start_stopCalls_after_interrupt s hlive pre post now hpre
  refine ⟨(Start_waiting s pre hpre).2.1, h2, ?_⟩
  intro hT c hc
  rw [h2, List.mem_singleton] at hc
  subst hc
  simp [StopCall.expired, hT]

/-- C5 (as stated, refuted): on a sink set above the fatal level, after the
interrupt and a stop operation that returns an error, the process has not
exited, no fatal entry was written, and `Start` has returned. -/
theorem Start_stop_failure_unlogged :
    ((serverAtLevel 5).Start
        [Event.interrupt 100, Event.stopReturn (some "context deadline exceeded")]).log.exited
      = false ∧
    ((serverAtLevel 5).Start
        [Event.interrupt 100, Event.stopReturn (some "context deadline exceeded")]).log.fatals
      = [] ∧
    ((serverAtLevel 5).Start
        [Event.interrupt 100, Event.stopReturn (some "context deadline exceeded")]).main
      = MainState.returned ∧
    ¬ (((serverAtLevel 5).Start
          [Event.interrupt 100, Event.stopReturn (some "context deadline exceeded")]).log.exited
        = true ↔ (some "context deadline exceeded" : Option Error) ≠ none) := by
  have h1 : ((serverAtLevel 5).Start
      [Event.interrupt 100, Event.stopReturn (some "context deadline exceeded")]).log.exited
      = false := by decide
  refine ⟨h1, by decide, by decide, ?_⟩
  rw [h1]
  simp

/-- C5 (amended): in a live process whose sink admits the fatal level, once the
interrupt has arrived and the stop operation has returned `err`, the process
has exited exactly when `err` is an error, and then with exactly one new fatal
entry carrying it; when `err` is nil `Start` has returned and no fatal entry was
added; in both cases the stop operation was invoked once, whatever happens
afterwards. -/
theorem Start_fatal_iff_stop_fails (s : Server) (hlive : s.log.exited = false)
    (hfatal : s.log.should Level.fatal = true)
    (pre mid post : List Event) (now : Int) (err : Option Error)
    (hpre : ∀ e ∈ pre, e.isInterrupt = false) (hmid : ∀ e ∈ mid, e.isStopReturn = false) :
    ((s.Start (pre ++ Event.interrupt now :: (mid ++ Event.stopReturn err :: post))).log.exited
        = true ↔ err ≠ none) ∧
    ((s.Start (pre ++ Event.interrupt now :: (mid ++ Event.stopReturn err :: post))).main
        = MainState.halted ↔ err ≠ none) ∧
    ((s.Start (pre ++ Event.interrupt now :: (mid ++ Event.stopReturn err :: post))).main
        = MainState.returned ↔ err = none) ∧
    (s.Start (pre ++ Event.interrupt now :: (mid ++ Event.stopReturn err :: post))).log.fatals
        = s.log.fatals ++ fatalOf err ∧
    (s.Start (pre ++ Event.interrupt now :: (mid ++ Event.stopReturn err :: post))).stopCalls
        = [⟨now, now + s.shutdownTimeout⟩] := by
  have hcalls := Start_stopCalls_after_interrupt s hlive pre
    (mid ++ Event.stopReturn err :: post) now hpre
  have h1 := Start_waiting s pre hpre
  have hx : (s.Start pre).log.exited = false := h1.2.2.1.trans hlive
  have hstep := step_interrupt s (s.run s.spawn pre) now h1.1 hx
  -- the state after the interrupt, then after `mid`
  have h3 := run_stopping s mid (s.step (s.run s.spawn pre) (Event.interrupt now))
    (by rw [hstep]) hmid
  have hm3 : (s.run (s.step (s.run s.spawn pre) (Event.interrupt now)) mid).main
      = MainState.stopping := by rw [h3.1, hstep]
  have hx3 : (s.run (s.step (s.run s.spawn pre) (Event.interrupt now)) mid).log.exited
      = false := by rw [h3.2.2.1, hstep]; exact hx
  have hf3 : (s.run (s.step (s.run s.spawn pre) (Event.interrupt now)) mid).log.fatals
      = s.log.fatals := by rw [h3.2.2.2, hstep]; exact h1.2.2.2
  have hs3 : (s.run (s.step (s.run s.spawn pre) (Event.interrupt now)) mid).log.should
      Level.fatal = true := by
    rw [run_should, hstep]
    show (s.run s.spawn pre).log.should Level.fatal = true
    rw [run_should]
    exact hfatal
  have hsplit : s.Start (pre ++ Event.interrupt now :: (mid ++ Event.stopReturn err :: post))
      = s.run (s.step (s.run (s.step (s.run s.spawn pre) (Event.interrupt now)) mid)
          (Event.stopReturn err)) post := by
    show s.run s.spawn _ = _
    rw [run_append, run_cons, run_append, run_cons]
  rw [hsplit] at hcalls ⊢
  cases err with
  | none =>
    have hs := step_stopReturn_none s _ hm3 hx3
    have h5 := run_over s post (s.step _ (Event.stopReturn none)) (by rw [hs]; exact Or.inl rfl)
    rw [hs] at h5 hcalls ⊢
    refine ⟨?_, ?_, ?_, ?_, hcalls⟩
    · rw [h5.2.2.1]; simp [hx3]
    · rw [h5.1]; simp
    · rw [h5.1]; simp
    · rw [h5.2.2.2]; simp [fatalOf, hf3]
  | some e =>
    have hs := step_stopReturn_some s _ e hm3 hx3 hs3
    have h5 := run_over s post (s.step _ (Event.stopReturn (some e)))
      (by rw [hs]; exact Or.inr rfl)
    rw [hs] at h5 hcalls ⊢
    refine ⟨?_, ?_, ?_, ?_, hcalls⟩
    · rw [h5.2.2.1]; simp [Fatal_admitted _ e hs3]
    · rw [h5.1]; simp
    · rw [h5.1]; simp
    · rw [h5.2.2.2]; simp [fatalOf, fatals_Fatal _ e hs3, hf3]

/-- C6 (as stated, refuted): on a sink set to the warn level, the failure of
the listen-and-serve call leaves the log as it was: no informational entry
carries the error. -/
theorem Start_listen_failure_unlogged :
    ((serverAtLevel 2).Start [Event.listenRun]).listen = ListenState.serving ∧
    ((serverAtLevel 2).Start
        [Event.listenRun,
          Event.listenReturn (some "listen tcp :8080: bind: address already in use")]).log.entries
      = [] ∧
    ¬ ((serverAtLevel 2).Start
        [Event.listenRun,
          Event.listenReturn (some "listen tcp :8080: bind: address already in use")]).log.entries
      = ((serverAtLevel 2).Start [Event.listenRun]).log.entries
          ++ [⟨Level.info, "", "Shutting down the server: "
                ++ "listen tcp :8080: bind: address already in use"⟩] := by
  have h0 : ((serverAtLevel 2).Start
      [Event.listenRun,
        Event.listenReturn (some "listen tcp :8080: bind: address already in use")]).log.entries
      = [] := by decide
  refine ⟨by decide, h0, ?_⟩
  rw [h0]
  simp

/-- C6 (amended): when the listen-and-serve call of the goroutine fails with
`err` and no interrupt arrives, the failure adds exactly one entry to the log,
an informational one carrying `err`, when the sink admits the info level, and
none when it does not; the goroutine is finished and `app.Start` was called
once only; the main flow of `Start` is still waiting, has not invoked the stop
operation, and the process has not exited. -/
theorem Start_listen_failure_only_logged (s : Server) (pre post : List Event) (err : Error)
    (hpre : ∀ e ∈ pre, e.isInterrupt = false) (hpost : ∀ e ∈ post, e.isInterrupt = false)
    (hserving : (s.Start pre).listen = ListenState.serving) :
    (s.log.should Level.info = true →
      (s.Start (pre ++ Event.listenReturn (some err) :: post)).log.entries
        = (s.Start pre).log.entries
            ++ [⟨Level.info, "", "Shutting down the server: " ++ err⟩]) ∧
    (s.log.should Level.info = false →
      (s.Start (pre ++ Event.listenReturn (some err) :: post)).log.entries
        = (s.Start pre).log.entries) ∧
    (s.Start (pre ++ Event.listenReturn (some err) :: post)).listen = ListenState.finished ∧
    (s.Start (pre ++ Event.listenReturn (some err) :: post)).listenCalls
        = [":" ++ toString s.port] ∧
    (s.Start (pre ++ Event.listenReturn (some err) :: post)).main = MainState.waiting ∧
    (s.Start (pre ++ Event.listenReturn (some err) :: post)).stopCalls = [] ∧
    (s.Start (pre ++ Event.listenReturn (some err) :: post)).log.exited = false := by
  have h1 := Start_waiting s pre hpre
  have hlive : s.log.exited = false := by
    cases hs : s.log.exited with
    | false => rfl
    | true =>
      have : s.Start pre = s.spawn := run_exited s s.spawn pre hs
      rw [this] at hserving
      simp [Server.spawn] at hserving
  have hx : (s.Start pre).log.exited = false := h1.2.2.1.trans hlive
  have hinv : s.listenInv (s.Start pre) := run_listenInv s pre s.spawn rfl
  have hcalls : (s.Start pre).listenCalls = [":" ++ toString s.port] := by
    simpa [Server.listenInv, hserving] using hinv
  have hshould : (s.Start pre).log.should Level.info = s.log.should Level.info :=
    run_should s pre s.spawn Level.info
  have hstep : s.step (s.Start pre) (Event.listenReturn (some err))
      = { s.Start pre with
          log := (s.Start pre).log.Infof ("Shutting down the server: " ++ err),
          listen := ListenState.finished } := by
    simp [Server.step, hx, hserving]
  have hsplit : s.Start (pre ++ Event.listenReturn (some err) :: post)
      = s.step (s.Start pre) (Event.listenReturn (some err)) := by
    show s.run s.spawn _ = _
    rw [run_append, run_cons]
    show s.run (s.step (s.Start pre) (Event.listenReturn (some err))) post = _
    exact run_idle s post _ (by rw [hstep]) (by rw [hstep]; exact h1.1) hpost
  rw [hsplit, hstep]
  refine ⟨?_, ?_, rfl, hcalls, h1.1, h1.2.1, ?_⟩
  · intro hinfo
    exact Infof_admitted _ _ (hshould.trans hinfo)
  · intro hinfo
    show ((s.Start pre).log.Infof _).entries = _
    rw [Infof_dropped _ _ (hshould.trans hinfo)]
  · show ((s.Start pre).log.Infof _).exited = false
    rw [exited_Infof]; exact hx

/-! ## The theorems at concrete inputs -/

/-- C1 (amended) at the verb PATCH on the example Server, whose sink admits the
error level. -/
theorem AddRoute_rejects_unsupported_verb_witness :
    "PATCH" ∉ supportedVerbs ∧
    exampleServer.log.should Level.error = true ∧
    ((exampleServer.AddRoute "PATCH" "/ping" outOfService).app.routes
        = exampleServer.app.routes ∧
    (exampleServer.AddRoute "PATCH" "/ping" outOfService).app.middleware
        = exampleServer.app.middleware ∧
    (∀ m p, (exampleServer.AddRoute "PATCH" "/ping" outOfService).app.find m p
        = exampleServer.app.find m p) ∧
    (exampleServer.log.should Level.error = true →
      ∃ e : LogEntry,
        (exampleServer.AddRoute "PATCH" "/ping" outOfService).log.entries
          = exampleServer.log.entries ++ [e] ∧
        e.level = Level.error ∧
        ∃ before after : String, e.msg = before ++ "PATCH" ++ after) ∧
    (exampleServer.log.should Level.error = false →
      (exampleServer.AddRoute "PATCH" "/ping" outOfService).log = exampleServer.log) ∧
    (exampleServer.AddRoute "PATCH" "/ping" outOfService).log.exited
        = exampleServer.log.exited ∧
    (exampleServer.AddRoute "PATCH" "/ping" outOfService).port = exampleServer.port ∧
    (exampleServer.AddRoute "PATCH" "/ping" outOfService).shutdownTimeout
        = exampleServer.shutdownTimeout) :=
  ⟨by decide, by decide,
    AddRoute_rejects_unsupported_verb exampleServer "PATCH" "/ping" outOfService (by decide)⟩

/-- C3 (amended) at the example calls. -/
theorem health_route_kept_witness :
    (∀ c ∈ exampleCalls, ¬ (c.1 = "GET" ∧ normalizePath c.2.1 = "/health")) ∧
    (((NewServer ⟨0, 0, [], false⟩ 8080 "https://example.com" 5000000000).addRoutes
        exampleCalls).app.find "GET" "/health" = some Handler.Health ∧
    ∀ c : Context,
      ((NewServer ⟨0, 0, [], false⟩ 8080 "https://example.com" 5000000000).addRoutes
          exampleCalls).invoke Handler.Health c
        = ((NewServer ⟨0, 0, [], false⟩ 8080 "https://example.com" 5000000000).addRoutes
              exampleCalls,
            ⟨200, "text/plain; charset=UTF-8", "OK"⟩, none)) :=
  ⟨by decide,
    health_route_kept ⟨0, 0, [], false⟩ 8080 "https://example.com" 5000000000 exampleCalls
      (by decide)⟩

/-- C4 at the example Server: the listen loop starts, the interrupt arrives at
time 100, a second interrupt and the return of the stop operation follow. -/
theorem Start_stops_once_after_first_interrupt_witness :
    exampleServer.log.exited = false ∧
    (∀ e ∈ [Event.listenRun], e.isInterrupt = false) ∧
    ((exampleServer.Start [Event.listenRun]).stopCalls = [] ∧
    (exampleServer.Start ([Event.listenRun] ++ Event.interrupt 100 ::
        [Event.interrupt 101, Event.stopReturn none])).stopCalls
        = [⟨100, 100 + exampleServer.shutdownTimeout⟩] ∧
    (exampleServer.shutdownTimeout = 0 →
        ∀ c ∈ (exampleServer.Start ([Event.listenRun] ++ Event.interrupt 100 ::
            [Event.interrupt 101, Event.stopReturn none])).stopCalls, c.expired)) :=
  ⟨rfl, by decide,
    Start_stops_once_after_first_interrupt exampleServer rfl [Event.listenRun]
      [Event.interrupt 101, Event.stopReturn none] 100 (by decide)⟩

/-- C5 (amended) at the example Server, whose sink admits the fatal level, with
a stop operation that runs into its deadline. -/
theorem Start_fatal_iff_stop_fails_witness :
    exampleServer.log.exited = false ∧
    exampleServer.log.should Level.fatal = true ∧
    (∀ e ∈ [Event.listenRun], e.isInterrupt = false) ∧
    (∀ e ∈ [Event.interrupt 101], e.isStopReturn = false) ∧
    (((exampleServer.Start ([Event.listenRun] ++ Event.interrupt 100 ::
          ([Event.interrupt 101] ++ Event.stopReturn (some "context deadline exceeded") ::
            [Event.listenReturn (some "http: Server closed")]))).log.exited
        = true ↔ some "context deadline exceeded" ≠ none) ∧
    ((exampleServer.Start ([Event.listenRun] ++ Event.interrupt 100 ::
          ([Event.interrupt 101] ++ Event.stopReturn (some "context deadline exceeded") ::
            [Event.listenReturn (some "http: Server closed")]))).main
        = MainState.halted ↔ some "context deadline exceeded" ≠ none) ∧
    ((exampleServer.Start ([Event.listenRun] ++ Event.interrupt 100 ::
          ([Event.interrupt 101] ++ Event.stopReturn (some "context deadline exceeded") ::
            [Event.listenReturn (some "http: Server closed")]))).main
        = MainState.returned ↔ some "context deadline exceeded" = none) ∧
    (exampleServer.Start ([Event.listenRun] ++ Event.interrupt 100 ::
          ([Event.interrupt 101] ++ Event.stopReturn (some "context deadline exceeded") ::
            [Event.listenReturn (some "http: Server closed")]))).log.fatals
        = exampleServer.log.fatals ++ fatalOf (some "context deadline exceeded") ∧
    (exampleServer.Start ([Event.listenRun] ++ Event.interrupt 100 ::
          ([Event.interrupt 101] ++ Event.stopReturn (some "context deadline exceeded") ::
            [Event.listenReturn (some "http: Server closed")]))).stopCalls
        = [⟨100, 100 + exampleServer.shutdownTimeout⟩]) :=
  ⟨rfl, by decide, by decide, by decide,
    Start_fatal_iff_stop_fails exampleServer rfl (by decide) [Event.listenRun]
      [Event.interrupt 101] [Event.listenReturn (some "http: Server closed")] 100
      (some "context deadline exceeded") (by decide) (by decide)⟩

/-- C6 (amended) at the example Server, whose sink admits the info level, with
port 8080 already bound. -/
theorem Start_listen_failure_only_logged_witness :
    (∀ e ∈ [Event.listenRun], e.isInterrupt = false) ∧
    (∀ e ∈ [Event.stopReturn none, Event.listenRun], e.isInterrupt = false) ∧
    (exampleServer.Start [Event.listenRun]).listen = ListenState.serving ∧
    exampleServer.log.should Level.info = true ∧
    ((exampleServer.log.should Level.info = true →
      (exampleServer.Start ([Event.listenRun] ++
          Event.listenReturn (some "listen tcp :8080: bind: address already in use") ::
            [Event.stopReturn none, Event.listenRun])).log.entries
        = (exampleServer.Start [Event.listenRun]).log.entries
            ++ [⟨Level.info, "", "Shutting down the server: "
                  ++ "listen tcp :8080: bind: address already in use"⟩]) ∧
    (exampleServer.log.should Level.info = false →
      (exampleServer.Start ([Event.listenRun] ++
          Event.listenReturn (some "listen tcp :8080: bind: address already in use") ::
            [Event.stopReturn none, Event.listenRun])).log.entries
        = (exampleServer.Start [Event.listenRun]).log.entries) ∧
    (exampleServer.Start ([Event.listenRun] ++
          Event.listenReturn (some "listen tcp :8080: bind: address already in use") ::
            [Event.stopReturn none, Event.listenRun])).listen = ListenState.finished ∧
    (exampleServer.Start ([Event.listenRun] ++
          Event.listenReturn (some "listen tcp :8080: bind: address already in use") ::
            [Event.stopReturn none, Event.listenRun])).listenCalls
        = [":" ++ toString exampleServer.port] ∧
    (exampleServer.Start ([Event.listenRun] ++
          Event.listenReturn (some "listen tcp :8080: bind: address already in use") ::
            [Event.stopReturn none, Event.listenRun])).main = MainState.waiting ∧
    (exampleServer.Start ([Event.listenRun] ++
          Event.listenReturn (some "listen tcp :8080: bind: address already in use") ::
            [Event.stopReturn none, Event.listenRun])).stopCalls = [] ∧
    (exampleServer.Start ([Event.listenRun] ++
          Event.listenReturn (some "listen tcp :8080: bind: address already in use") ::
            [Event.stopReturn none, Event.listenRun])).log.exited = false) :=
  ⟨by decide, by decide, rfl, by decide,
    Start_listen_failure_only_logged exampleServer [Event.listenRun]
      [Event.stopReturn none, Event.listenRun]
      "listen tcp :8080: bind: address already in use" (by decide) (by decide) rfl⟩

end server
